import Mathlib

/-!
Verification of the pyquant-client repository core: the candle range chunker
and parameter validators of src/helixirapi/helixir_api.py, and the JSON
unmarshalling engine of src/helixirapi/models/definitions.py together with
the entry point src/quantnote_api/models/unmarshal.py.

Modelling conventions: Python integers and timestamps are Int; Python dicts
are ordered association lists; raised exceptions are an explicit error type;
the Python truthiness test on an int is a comparison with zero.
-/

namespace PyQuant

/-- Python exception outcomes, one constructor per distinct raise site kind.
The source raises plain ValueError or Exception with a message; each message
is modelled by its own constructor. -/
inductive PyError where
  /-- ValueError at helixir_api.py line 274 (data available only from epoch) -/
  | rangeTooEarly
  /-- ValueError at helixir_api.py line 277 (to must be greater than from) -/
  | invalidRange
  /-- ValueError at helixir_api.py line 321 (chain not supported) -/
  | invalidChain
  /-- ValueError at helixir_api.py line 290 -/
  | invalidLimit
  /-- ValueError at helixir_api.py lines 297 and 299 -/
  | invalidPage
  /-- Exception at helixir_api.py line 149 (time interval too long) -/
  | rangeTooLarge
  /-- built-in TypeError (for example None minus None) -/
  | typeError
  /-- built-in KeyError (missing dict key) -/
  | keyError
  /-- built-in AttributeError (attribute lookup on an object lacking it) -/
  | attributeError
  /-- built-in IndexError (sequence index out of range) -/
  | indexError
  /-- built-in ValueError from a failed scalar conversion -/
  | valueError
  /-- artificial outcome of the bounded recursion model, not a Python
  exception; unreachable once the fuel exceeds the payload nesting depth -/
  | fuelExhausted
  deriving DecidableEq

/-- Decidable equality of outcomes, for concrete evaluation of results. -/
instance exceptDecEq {ε α : Type} [DecidableEq ε] [DecidableEq α] :
    DecidableEq (Except ε α) := fun x y =>
  match x, y with
  | .ok a, .ok b =>
      if h : a = b then isTrue (by rw [h]) else isFalse (by simp [h])
  | .error a, .error b =>
      if h : a = b then isTrue (by rw [h]) else isFalse (by simp [h])
  | .ok _, .error _ => isFalse (by simp)
  | .error _, .ok _ => isFalse (by simp)

/-- The timeframe codes that have entries in the candle tables
(helixir_api.py lines 74-108).  The codes W1 and MN1 pass
validate_resolution but have no table entry, so the chunker cannot
process them; they are outside this model. -/
inductive Resolution where
  | M1 | M5 | M10 | M15 | M30 | H1 | H4 | H12 | D1
  deriving DecidableEq

/-- helixir_api.py lines 74-84: candle duration in seconds per resolution. -/
def candle_seconds : Resolution → Int
  | .M1 => 1 * 60
  | .M5 => 5 * 60
  | .M10 => 10 * 60
  | .M15 => 15 * 60
  | .M30 => 30 * 60
  | .H1 => 60 * 60
  | .H4 => 4 * 60 * 60
  | .H12 => 12 * 60 * 60
  | .D1 => 24 * 60 * 60

/-- helixir_api.py lines 86-96: relaxed per-resolution maximum window. -/
def candle_limits : Resolution → Int
  | .M1 => 1 * 60 * 60 * 24 * 7        -- 7 days
  | .M5 => 5 * 60 * 12 * 24 * 7        -- 7 days
  | .M10 => 10 * 60 * 6 * 24 * 7       -- 7 days
  | .M15 => 15 * 60 * 4 * 24 * 10      -- 10 days
  | .M30 => 30 * 60 * 2 * 24 * 10      -- 10 days
  | .H1 => 60 * 60 * 24 * 14           -- 14 days
  | .H4 => 4 * 60 * 60 * 6 * 20        -- 20 days
  | .H12 => 12 * 60 * 60 * 2 * 20      -- 20 days
  | .D1 => 24 * 60 * 60 * 30           -- 30 days

/-- helixir_api.py lines 98-108: strict per-resolution maximum window,
used for high-cardinality endpoints. -/
def strict_candle_limits : Resolution → Int
  | .M1 => 1 * 60 * 60 * 24 * 1        -- 1 day
  | .M5 => 5 * 60 * 12 * 24 * 1        -- 1 day
  | .M10 => 10 * 60 * 6 * 24 * 1       -- 1 day
  | .M15 => 15 * 60 * 4 * 24 * 2       -- 2 days
  | .M30 => 30 * 60 * 2 * 24 * 2       -- 2 days
  | .H1 => 60 * 60 * 24 * 2            -- 2 days
  | .H4 => 4 * 60 * 60 * 6 * 7         -- 7 days
  | .H12 => 12 * 60 * 60 * 2 * 7       -- 7 days
  | .D1 => 24 * 60 * 60 * 30           -- 30 days

/-- helixir_api.py line 73: global maximum candle count per sub-request. -/
def CANDLE_LIMIT : Int := 5000

/-- helixir_api.py line 49: the data availability epoch,
dt.fromisoformat with value 2021-04-12T13:45:00+02:00, whose POSIX
timestamp is 1618227900 seconds. -/
def DATA_EPOCH : Int := 1618227900

/-- Python substring containment (the `in` operator on strings):
some tail of the haystack starts with the needle. -/
def strContains (hay needle : String) : Bool :=
  hay.data.tails.any fun t => needle.data.isPrefixOf t

/-- helixir_api.py line 140: an endpoint is served from the strict table
exactly when its path contains active_addresses or moves. -/
def isHighCard (endpoint : String) : Bool :=
  strContains endpoint "active_addresses" || strContains endpoint "moves"

/-- helixir_api.py lines 140-144: the maximum sub-request span in seconds.
The table is chosen by the endpoint tag, then capped by the candle
duration times the global candle limit. -/
def chunkStep (endpoint : String) (res : Resolution) : Int :=
  min (if isHighCard endpoint then strict_candle_limits res else candle_limits res)
      (candle_seconds res * CANDLE_LIMIT)

/-- Python range(a, b, s) for a positive step s: the ascending arithmetic
progression from a with step s, strictly below b.  The source only ever
calls range (via trange) with a positive step. -/
def pyRange (a b s : Int) : List Int :=
  if 0 < s then
    (List.range (((b - a) + s - 1) / s).toNat).map fun (k : Nat) => a + (k : Int) * s
  else []

/-- The sub-windows generated by the loop at helixir_api.py lines 157-159:
window start i comes from range(from, to, step), window end is
min(i + step, original_to). -/
def chunkWindows (f t s : Int) : List (Int × Int) :=
  (pyRange f t s).map fun i => (i, min (i + s) t)

/-- helixir_api.py lines 154-155: a missing or future to parameter is
replaced by the current time. -/
def effective_to (to? : Option Int) (now : Int) : Int :=
  match to? with
  | none => now
  | some tv => if now < tv then now else tv

/-- The request loop of helixir_api.py lines 151-161: default the missing
bounds (lines 152-155), set original_to (line 156), then accumulate one
executor call per range start (lines 157-160). -/
def candle_request_loop {α : Type} (step : Int) (from? to? : Option Int) (now : Int)
    (exec : Int → Int → List α) : List α :=
  (pyRange (from?.getD DATA_EPOCH) (effective_to to? now) step).foldl
    (fun acc i => acc ++ exec i (min (i + step) (effective_to to? now))) []

/-- helixir_api.py lines 138-161, HelixirApi._handle_candle_response.
The source binds the step once (lines 140-144); here chunkStep is simply
referenced at each use. -/
def handle_candle_response {α : Type} (split_request : Bool) (endpoint : String)
    (res : Resolution) (from? to? : Option Int) (now : Int)
    (exec : Int → Int → List α) : Except PyError (List α) :=
  if split_request then
    .ok (candle_request_loop (chunkStep endpoint res) from? to? now exec)
  else
    match from?, to? with
    | some f, some t =>
        -- line 147 computes delta = params["from"] - params["to"]; line 148
        -- tests delta / seconds > CANDLE_LIMIT (float division, modelled
        -- exactly for positive seconds) or delta > step
        if CANDLE_LIMIT * candle_seconds res < f - t ∨ chunkStep endpoint res < f - t then
          .error .rangeTooLarge
        else .ok (candle_request_loop (chunkStep endpoint res) from? to? now exec)
    | _, _ => .error .typeError  -- None minus int (or int minus None)

/-- helixir_api.py lines 259-266 restricted to integer timestamps: an int
date is returned unchanged (the below-epoch case only emits a warning).
ISO string and datetime inputs, which go through isoparse, are outside
the integer model. -/
def validate_date (date : Option Int) : Option Int := date

/-- helixir_api.py lines 269-278, HelixirApi._validate_from__to.
Python truthiness on the ints: zero is falsy and skips the checks. -/
def validate_from__to (from? to? : Option Int) :
    Except PyError (Option Int × Option Int) :=
  match validate_date to? with
  | some tv =>
      -- `if to:` fails on zero
      if tv = 0 then .ok (validate_date from?, validate_date to?)
      else if tv < DATA_EPOCH then .error .rangeTooEarly
      else
        match validate_date from? with
        | some fv =>
            -- `if from_:` fails on zero
            if fv = 0 then .ok (validate_date from?, validate_date to?)
            else if tv ≤ fv then .error .invalidRange
            else .ok (validate_date from?, validate_date to?)
        | none => .ok (validate_date from?, validate_date to?)
  | none => .ok (validate_date from?, validate_date to?)

/-- helixir_api.py line 71. -/
def LIMIT_LIMITS : Int × Int := (1, 500)

/-- helixir_api.py line 72. -/
def PAGE_LIMITS : Int × Int := (1, 922337203685477581)

/-- helixir_api.py lines 286-290, HelixirApi._validate_limit.
A falsy limit (absent or zero) returns without checking the bounds. -/
def validate_limit (limit : Option Int) : Except PyError Unit :=
  match limit with
  | none => .ok ()
  | some n =>
      if n = 0 then .ok ()
      else if n < LIMIT_LIMITS.1 ∨ LIMIT_LIMITS.2 < n then .error .invalidLimit
      else .ok ()

/-- helixir_api.py lines 293-300, HelixirApi._validate_page. -/
def validate_page (page : Option Int) : Except PyError Unit :=
  match page with
  | none => .ok ()
  | some n =>
      if n = 0 then .ok ()
      else if n < PAGE_LIMITS.1 then .error .invalidPage
      else if PAGE_LIMITS.2 < n then .error .invalidPage
      else .ok ()

/-- A chain argument: the supported list mixes ints and strings. -/
inductive ChainVal where
  | i : Int → ChainVal
  | s : String → ChainVal
  deriving DecidableEq

/-- helixir_api.py lines 64-69: five canonical ids, then three alias bands
of the same width. -/
def CHAIN_SUPPORTED_VALUES : List ChainVal :=
  [.i 56, .i 1, .i 137, .i 43114, .i 250,
   .s "BSC", .s "ETH", .s "POLYGON", .s "AVAX", .s "FTM",
   .s "bsc", .s "eth", .s "polygon", .s "avax", .s "ftm",
   .s "56", .s "1", .s "137", .s "43114", .s "250"]

/-- helixir_api.py line 70. -/
def CHAINS_NUMBER : Nat := 5

/-- helixir_api.py lines 319-322, HelixirApi._validate_chain.  The index
of a member is below 20, so index mod 5 is always a valid position and
the default of getD is never consulted. -/
def validate_chain (chain : ChainVal) : Except PyError ChainVal :=
  if chain ∈ CHAIN_SUPPORTED_VALUES then
    .ok (CHAIN_SUPPORTED_VALUES.getD
          (CHAIN_SUPPORTED_VALUES.indexOf chain % CHAINS_NUMBER) (.i 0))
  else .error .invalidChain

/-! ### Chunker lemmas -/

lemma chunkStep_pos (endpoint : String) (res : Resolution) :
    0 < chunkStep endpoint res := by
  unfold chunkStep
  cases isHighCard endpoint <;> cases res <;> decide

lemma candle_seconds_pos (res : Resolution) : 0 < candle_seconds res := by
  cases res <;> decide

lemma foldl_append_eq {α : Type} (g : Int → List α) (l : List Int) :
    ∀ acc : List α,
      l.foldl (fun a i => a ++ g i) acc = acc ++ (l.map g).flatten := by
  induction l with
  | nil => intro acc; simp
  | cons i rest ih =>
      intro acc
      rw [List.foldl_cons, ih, List.map_cons, List.flatten_cons, List.append_assoc]

lemma pyRange_length (a b s : Int) (hs : 0 < s) :
    (pyRange a b s).length = (((b - a) + s - 1) / s).toNat := by
  simp only [pyRange, if_pos hs, List.length_map, List.length_range]

lemma pyRange_get (a b s : Int) (hs : 0 < s) (k : Nat)
    (hk : k < (pyRange a b s).length) :
    (pyRange a b s).get ⟨k, hk⟩ = a + (k : Int) * s := by
  simp only [pyRange, if_pos hs, List.get_eq_getElem] at hk ⊢
  simp only [List.getElem_map, List.getElem_range]

/-- For a positive step, index k lies below the Python range count iff the
k-th start is still below the upper bound. -/
lemma count_iff (D s : Int) (hs : 0 < s) (k : Nat) :
    k < ((D + s - 1) / s).toNat ↔ (k : Int) * s < D := by
  set q := (D + s - 1) / s with hq
  have h1 : s * q + (D + s - 1) % s = D + s - 1 := Int.ediv_add_emod _ _
  have h2 : 0 ≤ (D + s - 1) % s := Int.emod_nonneg _ (by omega)
  have h3 : (D + s - 1) % s < s := Int.emod_lt_of_pos _ hs
  constructor
  · intro hk
    have hkq : (k : Int) ≤ q - 1 := by omega
    have hmul := mul_le_mul_of_nonneg_right hkq (le_of_lt hs)
    have hexp : (q - 1) * s = s * q - s := by ring
    omega
  · intro hks
    by_contra hk
    have hqk : q ≤ (k : Int) := by omega
    have hmul := mul_le_mul_of_nonneg_right hqk (le_of_lt hs)
    have hexp : q * s = s * q := by ring
    omega

lemma chunkWindows_length (f t s : Int) (hs : 0 < s) :
    (chunkWindows f t s).length = (((t - f) + s - 1) / s).toNat := by
  simp [chunkWindows, pyRange_length f t s hs]

lemma chunkWindows_get (f t s : Int) (hs : 0 < s) (k : Nat)
    (hk : k < (chunkWindows f t s).length) :
    (chunkWindows f t s).get ⟨k, hk⟩
      = (f + (k : Int) * s, min (f + (k : Int) * s + s) t) := by
  have hk' : k < (pyRange f t s).length := by
    simpa [chunkWindows] using hk
  simp only [chunkWindows, List.get_eq_getElem, List.getElem_map]
  have := pyRange_get f t s hs k hk'
  simp only [List.get_eq_getElem] at this
  simp [this]

lemma chunkWindows_mem (f t s : Int) (hs : 0 < s) (w : Int × Int) :
    w ∈ chunkWindows f t s
      ↔ ∃ k : Nat, (k : Int) * s < t - f
          ∧ w = (f + (k : Int) * s, min (f + (k : Int) * s + s) t) := by
  constructor
  · intro hw
    obtain ⟨⟨k, hk⟩, hkw⟩ := List.get_of_mem hw
    refine ⟨k, ?_, ?_⟩
    · have hlen := hk
      rw [chunkWindows_length f t s hs] at hlen
      exact (count_iff (t - f) s hs k).mp hlen
    · rw [← hkw, chunkWindows_get f t s hs k hk]
  · rintro ⟨k, hklt, rfl⟩
    have hk : k < (chunkWindows f t s).length := by
      rw [chunkWindows_length f t s hs]
      exact (count_iff (t - f) s hs k).mpr hklt
    have hg := chunkWindows_get f t s hs k hk
    rw [← hg]
    exact List.get_mem _ _ hk

/-- Full coverage with no gaps: a point lies in the requested range iff it
lies in one of the generated sub-windows. -/
lemma chunkWindows_cover (f t s : Int) (hs : 0 < s) (x : Int) :
    (f ≤ x ∧ x < t) ↔ ∃ w ∈ chunkWindows f t s, w.1 ≤ x ∧ x < w.2 := by
  constructor
  · rintro ⟨hfx, hxt⟩
    set k : Nat := ((x - f) / s).toNat with hkdef
    have hnn : 0 ≤ x - f := by omega
    have hdiv0 : 0 ≤ (x - f) / s := Int.ediv_nonneg hnn (le_of_lt hs)
    have hcast : (k : Int) = (x - f) / s := by omega
    have h1 : s * ((x - f) / s) + (x - f) % s = x - f := Int.ediv_add_emod _ _
    have h2 : 0 ≤ (x - f) % s := Int.emod_nonneg _ (by omega)
    have h3 : (x - f) % s < s := Int.emod_lt_of_pos _ hs
    have hks : (k : Int) * s = s * ((x - f) / s) := by rw [hcast]; ring
    refine ⟨(f + (k : Int) * s, min (f + (k : Int) * s + s) t),
      (chunkWindows_mem f t s hs _).mpr ⟨k, by omega, rfl⟩, by omega,
      lt_min (by omega) hxt⟩
  · rintro ⟨w, hw, hwx1, hwx2⟩
    obtain ⟨k, hklt, rfl⟩ := (chunkWindows_mem f t s hs w).mp hw
    have hnn : (0 : Int) ≤ (k : Int) * s :=
      mul_nonneg (Int.natCast_nonneg k) (le_of_lt hs)
    have hmin := min_le_right (f + (k : Int) * s + s) t
    dsimp only at hwx1 hwx2
    omega

/-- No overlap and chronological order: an earlier window ends no later
than a later window starts. -/
lemma chunkWindows_disjoint (f t s : Int) (hs : 0 < s) (i j : Nat)
    (hi : i < (chunkWindows f t s).length) (hj : j < (chunkWindows f t s).length)
    (hij : i < j) :
    ((chunkWindows f t s).get ⟨i, hi⟩).2 ≤ ((chunkWindows f t s).get ⟨j, hj⟩).1 := by
  rw [chunkWindows_get f t s hs i hi, chunkWindows_get f t s hs j hj]
  have hsucc : ((i : Int) + 1) * s ≤ (j : Int) * s :=
    mul_le_mul_of_nonneg_right (by omega) (le_of_lt hs)
  have hexp : ((i : Int) + 1) * s = (i : Int) * s + s := by ring
  have hmin := min_le_left (f + (i : Int) * s + s) t
  omega

lemma effective_to_some (t now : Int) (hnow : t ≤ now) :
    effective_to (some t) now = t := by
  show (if now < t then now else t) = t
  rw [if_neg (not_lt.mpr hnow)]

lemma loop_eq_flatten {α : Type} (step f t now : Int)
    (exec : Int → Int → List α) (hnow : t ≤ now) :
    candle_request_loop step (some f) (some t) now exec
      = ((chunkWindows f t step).map fun w => exec w.1 w.2).flatten := by
  unfold candle_request_loop
  rw [effective_to_some t now hnow, Option.getD_some, foldl_append_eq]
  simp only [chunkWindows, List.map_map]
  rfl

lemma handle_split_eq {α : Type} (endpoint : String) (res : Resolution)
    (f t now : Int) (exec : Int → Int → List α) (hnow : t ≤ now) :
    handle_candle_response true endpoint res (some f) (some t) now exec
      = .ok (((chunkWindows f t (chunkStep endpoint res)).map
          fun w => exec w.1 w.2).flatten) := by
  unfold handle_candle_response
  rw [if_pos rfl, loop_eq_flatten _ f t now exec hnow]

lemma chunkStep_H1 : chunkStep "candles" Resolution.H1 = 1209600 := by decide

lemma chunkWindows_H1 (f0 : Int) :
    chunkWindows f0 (f0 + 1728000) 1209600
      = [(f0, f0 + 1209600), (f0 + 1209600, f0 + 1728000)] := by
  unfold chunkWindows pyRange
  rw [if_pos (by norm_num : (0 : Int) < 1209600)]
  have h : f0 + 1728000 - f0 + 1209600 - 1 = 2937599 := by ring
  rw [h]
  have h2 : ((2937599 : Int) / 1209600).toNat = 2 := by decide
  rw [h2]
  have hr : List.range 2 = [0, 1] := by decide
  rw [hr]
  simp only [List.map_cons, List.map_nil, Nat.cast_zero, Nat.cast_one, zero_mul, one_mul,
    add_zero]
  have hmin1 : min (f0 + 1209600) (f0 + 1728000) = f0 + 1209600 :=
    min_eq_left (by omega)
  have hmin2 : min (f0 + 1209600 + 1209600) (f0 + 1728000) = f0 + 1728000 :=
    min_eq_right (by omega)
  rw [hmin1, hmin2]

/-- Claim C1: with chunking enabled, the loop in _handle_candle_response
partitions the interval from the from parameter to the to parameter into
consecutive sub-windows of width chunkStep (the last clipped to the upper
bound), calls the executor once per sub-window in ascending order and
concatenates the results; the windows cover the range exactly, without
overlap or gap.  For resolution H1 on a standard endpoint the step is
1209600 seconds and a span of 1728000 seconds gives exactly the two
windows stated in the claim. -/
theorem chunker_partitions_range {α : Type} (endpoint : String) (res : Resolution)
    (f t now : Int) (exec : Int → Int → List α)
    (_hft : f < t) (hnow : t ≤ now) :
    handle_candle_response true endpoint res (some f) (some t) now exec
        = .ok (((chunkWindows f t (chunkStep endpoint res)).map
            fun w => exec w.1 w.2).flatten)
    ∧ (∀ (k : Nat) (hk : k < (chunkWindows f t (chunkStep endpoint res)).length),
        (chunkWindows f t (chunkStep endpoint res)).get ⟨k, hk⟩
          = (f + (k : Int) * chunkStep endpoint res,
             min (f + (k : Int) * chunkStep endpoint res + chunkStep endpoint res) t))
    ∧ (∀ x : Int, (f ≤ x ∧ x < t) ↔
        ∃ w ∈ chunkWindows f t (chunkStep endpoint res), w.1 ≤ x ∧ x < w.2)
    ∧ (∀ (i j : Nat) (hi : i < (chunkWindows f t (chunkStep endpoint res)).length)
          (hj : j < (chunkWindows f t (chunkStep endpoint res)).length), i < j →
          ((chunkWindows f t (chunkStep endpoint res)).get ⟨i, hi⟩).2
            ≤ ((chunkWindows f t (chunkStep endpoint res)).get ⟨j, hj⟩).1)
    ∧ chunkStep "candles" Resolution.H1 = 1209600
    ∧ (∀ f0 : Int, chunkWindows f0 (f0 + 1728000) (chunkStep "candles" Resolution.H1)
          = [(f0, f0 + 1209600), (f0 + 1209600, f0 + 1728000)]) := by
  have hs := chunkStep_pos endpoint res
  exact ⟨handle_split_eq endpoint res f t now exec hnow,
    chunkWindows_get f t _ hs,
    chunkWindows_cover f t _ hs,
    fun i j hi hj hij => chunkWindows_disjoint f t _ hs i j hi hj hij,
    chunkStep_H1,
    fun f0 => by rw [chunkStep_H1]; exact chunkWindows_H1 f0⟩

/-- Witness for C1: the H1 end-to-end scenario at from = 0, span 20 days. -/
theorem chunker_partitions_range_witness :
    handle_candle_response true "candles" Resolution.H1 (some 0) (some 1728000) 1728000
        (fun a b => [(a, b)])
      = .ok (((chunkWindows 0 1728000 (chunkStep "candles" Resolution.H1)).map
          fun w => [(w.1, w.2)]).flatten) :=
  (chunker_partitions_range "candles" Resolution.H1 0 1728000 1728000
    (fun a b => [(a, b)]) (by decide) (by decide)).1

/-- Claim C2 (code bug): with chunking disabled the range check at
helixir_api.py lines 146-149 computes delta as from minus to, which is
never positive for a chronological range, so the range-too-large error is
never raised and the request is still chunked: disabling split_request
changes nothing whenever from does not exceed to.  At resolution H1 with
a span of two maximum windows the call silently issues two sub-requests
instead of raising. -/
theorem split_disabled_check_never_fires {α : Type} (endpoint : String) (res : Resolution)
    (f t now : Int) (exec : Int → Int → List α) (hft : f ≤ t) :
    handle_candle_response false endpoint res (some f) (some t) now exec
        = handle_candle_response true endpoint res (some f) (some t) now exec
    ∧ handle_candle_response false "candles" Resolution.H1 (some 0) (some 2419200) 2419200
        (fun a b => [(a, b)])
      = .ok [((0 : Int), (1209600 : Int)), (1209600, 2419200)] := by
  constructor
  · have hsec := candle_seconds_pos res
    have hstep := chunkStep_pos endpoint res
    have hC : (0 : Int) < CANDLE_LIMIT := by decide
    have hmul : 0 < CANDLE_LIMIT * candle_seconds res := mul_pos hC hsec
    have h1 : ¬(CANDLE_LIMIT * candle_seconds res < f - t ∨ chunkStep endpoint res < f - t) := by
      push_neg
      omega
    have hL : handle_candle_response false endpoint res (some f) (some t) now exec
        = .ok (candle_request_loop (chunkStep endpoint res) (some f) (some t) now exec) := by
      unfold handle_candle_response
      show (if CANDLE_LIMIT * candle_seconds res < f - t ∨ chunkStep endpoint res < f - t
              then (Except.error PyError.rangeTooLarge)
              else .ok (candle_request_loop (chunkStep endpoint res) (some f) (some t) now exec))
          = .ok (candle_request_loop (chunkStep endpoint res) (some f) (some t) now exec)
      rw [if_neg h1]
    have hR : handle_candle_response true endpoint res (some f) (some t) now exec
        = .ok (candle_request_loop (chunkStep endpoint res) (some f) (some t) now exec) := by
      unfold handle_candle_response
      rw [if_pos rfl]
    rw [hL, hR]
  · rfl

/-- Witness for C2: a one-day D1 range behaves the same with chunking
disabled as with it enabled. -/
theorem split_disabled_check_never_fires_witness :
    handle_candle_response false "candles" Resolution.D1 (some 100) (some 200) 200
        (fun a b => [(a, b)])
      = handle_candle_response true "candles" Resolution.D1 (some 100) (some 200) 200
          (fun a b => [(a, b)]) :=
  (split_disabled_check_never_fires "candles" Resolution.D1 100 200 200
    (fun a b => [(a, b)]) (by decide)).1

/-- Counterexample to claim C3 as stated: the concrete pairs named in the
claim use timestamps far below the data epoch, so validateFromTo with
from 50 and to 100 raises the range-too-early error instead of
succeeding, and with from 100 and to 50 it also raises range-too-early,
not invalid-range. -/
theorem validate_from_to_claim_examples_fail :
    validate_from__to (some 50) (some 100) = .error .rangeTooEarly
    ∧ validate_from__to (some 100) (some 50) = .error .rangeTooEarly := by
  constructor <;> rfl

/-- Claim C3 amended: the validator raises range-too-early when to is
present, nonzero and before the data epoch (regardless of from); it
raises invalid-range when to is present and at or after the epoch while
from is present, nonzero and at least to; it succeeds otherwise.  The
concrete examples of the claim hold once shifted above the data epoch. -/
theorem validate_from_to_spec (fv tv : Int) :
    (tv ≠ 0 → tv < DATA_EPOCH →
      ∀ from? : Option Int, validate_from__to from? (some tv) = .error .rangeTooEarly)
    ∧ (DATA_EPOCH ≤ tv → fv ≠ 0 → tv ≤ fv →
        validate_from__to (some fv) (some tv) = .error .invalidRange)
    ∧ (DATA_EPOCH ≤ tv → fv < tv →
        validate_from__to (some fv) (some tv) = .ok (some fv, some tv))
    ∧ validate_from__to (some fv) none = .ok (some fv, none)
    ∧ validate_from__to none (some (DATA_EPOCH - 1)) = .error .rangeTooEarly
    ∧ validate_from__to (some (DATA_EPOCH + 100)) (some (DATA_EPOCH + 50))
        = .error .invalidRange
    ∧ validate_from__to (some (DATA_EPOCH + 50)) (some (DATA_EPOCH + 100))
        = .ok (some (DATA_EPOCH + 50), some (DATA_EPOCH + 100)) := by
  refine ⟨?_, ?_, ?_, rfl, by rfl, by rfl, by rfl⟩
  · intro h0 hlt from?
    show (if tv = 0 then Except.ok (validate_date from?, validate_date (some tv))
          else if tv < DATA_EPOCH then Except.error PyError.rangeTooEarly
          else _) = Except.error PyError.rangeTooEarly
    rw [if_neg h0, if_pos hlt]
  · intro hge h0 hle
    show (if tv = 0 then Except.ok (validate_date (some fv), validate_date (some tv))
          else if tv < DATA_EPOCH then Except.error PyError.rangeTooEarly
          else if fv = 0 then Except.ok (validate_date (some fv), validate_date (some tv))
          else if tv ≤ fv then Except.error PyError.invalidRange
          else Except.ok (validate_date (some fv), validate_date (some tv)))
        = Except.error PyError.invalidRange
    have hde : (0 : Int) < DATA_EPOCH := by decide
    rw [if_neg (by omega : ¬tv = 0), if_neg (not_lt.mpr hge), if_neg h0,
      if_pos hle]
  · intro hge hlt
    show (if tv = 0 then Except.ok (validate_date (some fv), validate_date (some tv))
          else if tv < DATA_EPOCH then Except.error PyError.rangeTooEarly
          else if fv = 0 then Except.ok (validate_date (some fv), validate_date (some tv))
          else if tv ≤ fv then Except.error PyError.invalidRange
          else Except.ok (validate_date (some fv), validate_date (some tv)))
        = Except.ok (some fv, some tv)
    have hde : (0 : Int) < DATA_EPOCH := by decide
    rw [if_neg (by omega : ¬tv = 0), if_neg (not_lt.mpr hge)]
    by_cases h0 : fv = 0
    · rw [if_pos h0]
      rfl
    · rw [if_neg h0, if_neg (not_le.mpr hlt)]
      rfl

/-- Witness for C3: a to value five seconds before the epoch raises the
range-too-early error. -/
theorem validate_from_to_spec_witness :
    validate_from__to (some 7) (some (DATA_EPOCH - 5)) = .error .rangeTooEarly :=
  (validate_from_to_spec 7 (DATA_EPOCH - 5)).1 (by decide) (by decide) (some 7)

lemma strContains_iff (hay needle : String) :
    strContains hay needle = true ↔ needle.data <:+: hay.data := by
  unfold strContains
  rw [List.any_eq_true]
  constructor
  · rintro ⟨t, ht, hpre⟩
    rw [List.mem_tails] at ht
    rw [ List.isPrefixOf_iff_prefix] at hpre
    exact List.infix_iff_prefix_suffix.mpr ⟨t, hpre, ht⟩
  · intro hinf
    obtain ⟨t, hpre, hsuf⟩ := List.infix_iff_prefix_suffix.mp hinf
    exact ⟨t, (List.mem_tails _ _).mpr hsuf, List.isPrefixOf_iff_prefix.mpr hpre⟩

/-- Claim C6: the maximum sub-request span is the minimum of the configured
per-resolution window and the candle duration times the global limit of
5000; the strict table is selected exactly when the endpoint path
contains active_addresses or moves, the relaxed table otherwise. -/
theorem chunk_step_selection (endpoint : String) (res : Resolution) :
    chunkStep endpoint res
        = min (if isHighCard endpoint then strict_candle_limits res else candle_limits res)
            (candle_seconds res * CANDLE_LIMIT)
    ∧ (isHighCard endpoint = true
        ↔ ("active_addresses".data <:+: endpoint.data ∨ "moves".data <:+: endpoint.data))
    ∧ CANDLE_LIMIT = 5000 := by
  refine ⟨rfl, ?_, rfl⟩
  unfold isHighCard
  rw [Bool.or_eq_true, strContains_iff, strContains_iff]

/-- Claim C7: every allowed chain alias normalizes to the canonical id via
the index-mod-band rule, the three aliases of BSC all give 56, and every
value outside the allow-list raises the invalid-chain error. -/
theorem validate_chain_spec :
    validate_chain (.s "56") = .ok (.i 56)
    ∧ validate_chain (.i 56) = .ok (.i 56)
    ∧ validate_chain (.s "BSC") = .ok (.i 56)
    ∧ validate_chain (.i 999999) = .error .invalidChain
    ∧ (∀ c : ChainVal, c ∉ CHAIN_SUPPORTED_VALUES →
        validate_chain c = .error .invalidChain)
    ∧ (∀ c ∈ CHAIN_SUPPORTED_VALUES,
        validate_chain c
          = .ok (CHAIN_SUPPORTED_VALUES.getD
              (CHAIN_SUPPORTED_VALUES.indexOf c % CHAINS_NUMBER) (.i 0))) := by
  refine ⟨by decide, by decide, by decide, by decide, ?_, ?_⟩
  · intro c hc
    unfold validate_chain
    rw [if_neg hc]
  · intro c hc
    unfold validate_chain
    rw [if_pos hc]

/-- Witness for C7: a value outside the allow-list is rejected. -/
theorem validate_chain_spec_witness :
    validate_chain (.i 2) = .error .invalidChain :=
  validate_chain_spec.2.2.2.2.1 (.i 2) (by decide)

/-- Claim C8: the limit and page validators short-circuit on falsy values,
so zero (and an absent value) passes even though it is outside the
documented bounds; a present nonzero value raises exactly when it lies
outside the bounds. -/
theorem validate_limit_page_falsy (n : Int) :
    validate_limit (some 0) = .ok ()
    ∧ validate_limit none = .ok ()
    ∧ validate_page (some 0) = .ok ()
    ∧ ¬(LIMIT_LIMITS.1 ≤ (0 : Int))
    ∧ ¬(PAGE_LIMITS.1 ≤ (0 : Int))
    ∧ (n ≠ 0 →
        (validate_limit (some n) = .error .invalidLimit
          ↔ (n < LIMIT_LIMITS.1 ∨ LIMIT_LIMITS.2 < n)))
    ∧ (n ≠ 0 →
        (validate_page (some n) = .error .invalidPage
          ↔ (n < PAGE_LIMITS.1 ∨ PAGE_LIMITS.2 < n))) := by
  refine ⟨rfl, rfl, rfl, by decide, by decide, ?_, ?_⟩
  · intro h0
    show ((if n = 0 then Except.ok () else
            if n < LIMIT_LIMITS.1 ∨ LIMIT_LIMITS.2 < n then Except.error PyError.invalidLimit
            else Except.ok ()) = Except.error PyError.invalidLimit)
        ↔ (n < LIMIT_LIMITS.1 ∨ LIMIT_LIMITS.2 < n)
    rw [if_neg h0]
    by_cases hb : n < LIMIT_LIMITS.1 ∨ LIMIT_LIMITS.2 < n
    · rw [if_pos hb]; simp [hb]
    · rw [if_neg hb]; simp [hb]
  · intro h0
    show ((if n = 0 then Except.ok () else
            if n < PAGE_LIMITS.1 then Except.error PyError.invalidPage
            else if PAGE_LIMITS.2 < n then Except.error PyError.invalidPage
            else Except.ok ()) = Except.error PyError.invalidPage)
        ↔ (n < PAGE_LIMITS.1 ∨ PAGE_LIMITS.2 < n)
    rw [if_neg h0]
    by_cases hb1 : n < PAGE_LIMITS.1
    · rw [if_pos hb1]; simp [hb1]
    · rw [if_neg hb1]
      by_cases hb2 : PAGE_LIMITS.2 < n
      · rw [if_pos hb2]; simp [hb1, hb2]
      · rw [if_neg hb2]; simp [hb1, hb2]

/-- Witness for C8: limit 501 is rejected as out of bounds. -/
theorem validate_limit_page_falsy_witness :
    validate_limit (some 501) = .error .invalidLimit
      ↔ ((501 : Int) < LIMIT_LIMITS.1 ∨ LIMIT_LIMITS.2 < 501) :=
  (validate_limit_page_falsy 501).2.2.2.2.2.1 (by decide)

/-- Claim C9: chain validation is idempotent: every allow-listed value
normalizes to a canonical id that is itself allow-listed and a fixed
point of the validator. -/
theorem validate_chain_idempotent :
    ∀ c ∈ CHAIN_SUPPORTED_VALUES,
      (∃ v ∈ CHAIN_SUPPORTED_VALUES, validate_chain c = .ok v)
      ∧ (validate_chain c).bind validate_chain = validate_chain c := by
  decide

/-- Witness for C9: the ETH alias normalizes to a fixed point. -/
theorem validate_chain_idempotent_witness :
    (∃ v ∈ CHAIN_SUPPORTED_VALUES, validate_chain (.s "ETH") = .ok v)
    ∧ (validate_chain (.s "ETH")).bind validate_chain = validate_chain (.s "ETH") :=
  validate_chain_idempotent (.s "ETH") (by decide)

/-! ### Unmarshalling engine

Embedding of src/helixirapi/models/definitions.py (class Definition and
its schema tables) and of the entry point
src/quantnote_api/models/unmarshal.py.  JSON values and Python runtime
values share one type Val; Python dicts and object attribute stores are
ordered association lists. -/

/-- A value of the type tables _attributes_to_types: the builtin classes
float, int and str, the isoparse function, a typing.List of a registered
entity, or a registered entity class itself.  The source stores the class
objects; the embedding stores their registry names and resolves them
through the registry, which maps every registered class name to its
descriptor, so the lookup mirrors direct class access. -/
inductive PyType where
  | float
  | int
  | str
  | isoparse
  | listOf (elemName : String)
  | entity (clsName : String)

/-- One entity class of definitions.py: its name, the ordered field table
api_name_to_python, the primitivity table and the type table. -/
inductive Descriptor where
  | mk (name : String) (api_name_to_python : List (String × String))
      (attribute_is_primitive : List (String × Bool))
      (attributes_to_types : List (String × PyType)) : Descriptor

def Descriptor.name : Descriptor → String
  | .mk n _ _ _ => n

def Descriptor.api_name_to_python : Descriptor → List (String × String)
  | .mk _ a _ _ => a

def Descriptor.attribute_is_primitive : Descriptor → List (String × Bool)
  | .mk _ _ p _ => p

def Descriptor.attributes_to_types : Descriptor → List (String × PyType)
  | .mk _ _ _ t => t

/-- Python runtime values as seen by the unmarshaller: scalars, None,
lists, JSON objects (dicts), hydrated entities (class name plus attribute
dict) and datetimes produced by isoparse. -/
inductive Val where
  | num : Int → Val
  | str : String → Val
  | bool : Bool → Val
  | pynone : Val
  | list : List Val → Val
  | dict : List (String × Val) → Val
  | ent : String → List (String × Val) → Val
  | datetime : String → Val

/-- The attribute dict of a hydrated entity. -/
abbrev Store := List (String × Val)

/-- Python setattr on an object dict: update in place when the key is
present, append otherwise. -/
def setAttr (store : Store) (a : String) (v : Val) : Store :=
  if store.any (fun p => p.1 == a) then
    store.map fun p => if p.1 == a then (a, v) else p
  else store ++ [(a, v)]

/-- Attribute lookup on a hydrated entity; none when the attribute was
never set. -/
def getAttr (store : Store) (a : String) : Option Val :=
  (store.find? fun p => p.1 == a).map Prod.snd

/-- The Python keyword list consulted by keyword.iskeyword. -/
def pythonKeywords : List String :=
  ["False", "None", "True", "and", "as", "assert", "async", "await", "break",
   "class", "continue", "def", "del", "elif", "else", "except", "finally",
   "for", "from", "global", "if", "in", "is", "lambda", "nonlocal",
   "not", "or", "pass", "raise", "return", "try", "while", "with", "yield",
   "import"]

def iskeyword (k : String) : Bool := pythonKeywords.contains k

/-- The attribute name that definitions.py lines 52-65 derive from a wire
key: the mapped local name when the key is in the field table, otherwise
the key itself with a trailing underscore when it is a reserved
keyword. -/
def targetName (d : Descriptor) (k : String) : String :=
  match List.lookup k d.api_name_to_python with
  | some attribute_name => attribute_name
  | none => k ++ (if iskeyword k then "_" else "")

/-- The scalar coercion of definitions.py line 63: the declared type is
called on the wire value.  The builtins are modelled over the integer
numeric domain (fractional literals are outside the model); str of a
container abstracts the repr text, which no property reads. -/
def coerce (ty : PyType) (v : Val) : Except PyError Val :=
  match ty with
  | .float =>
      match v with
      | .num n => .ok (.num n)
      | .bool b => .ok (.num (if b then 1 else 0))
      | .str s =>
          match s.toInt? with
          | some n => .ok (.num n)
          | none => .error .valueError
      | _ => .error .typeError
  | .int =>
      match v with
      | .num n => .ok (.num n)
      | .bool b => .ok (.num (if b then 1 else 0))
      | .str s =>
          match s.toInt? with
          | some n => .ok (.num n)
          | none => .error .valueError
      | _ => .error .typeError
  | .str =>
      match v with
      | .str s => .ok (.str s)
      | .num n => .ok (.str (toString n))
      | .bool b => .ok (.str (if b then "True" else "False"))
      | .pynone => .ok (.str "None")
      | .datetime s => .ok (.str s)
      | .list _ => .ok (.str "<list>")
      | .dict _ => .ok (.str "<dict>")
      | .ent nm _ => .ok (.str nm)
  | .isoparse =>
      match v with
      | .str s => .ok (.datetime s)  -- parse failure on malformed text is outside the model
      | _ => .error .typeError
  | .listOf _ => .error .typeError   -- typing aliases cannot be instantiated
  | .entity _ => .error .typeError   -- entity constructors take no argument

/-- definitions.py lines 28-29: list_type.split with a bracket argument,
called on a type object.  The str class does have an unbound split
method, so str.split of a bracket returns a one-element list and the
index 1 fails; every other table entry (float, int, the isoparse
function, a typing alias delegating to list, an entity class) has no
split attribute at all. -/
def pyTypeSplit (ty : PyType) : Except PyError String :=
  match ty with
  | .str => .error .indexError
  | _ => .error .attributeError

/-- unmarshal.py line 17 and definitions.py line 58: response_type.split
on the bracket, index 1, drop the closing bracket. -/
def splitBracket (rt : String) : Except PyError String :=
  match rt.splitOn "[" with
  | _ :: second :: _ => .ok (second.dropRight 1)
  | _ => .error .indexError

/-- unmarshal.py line 20: response_type.split on comma-space, index 1,
drop the closing bracket. -/
def splitComma (rt : String) : Except PyError String :=
  match rt.splitOn ", " with
  | _ :: second :: _ => .ok (second.dropRight 1)
  | _ => .error .indexError

/-- unmarshal.py lines 5-9 and 13-14: the scalar coercions of the local
name_to_class table of the entry point module. -/
def scalarCoerce (name : String) (v : Val) : Except PyError Val :=
  if name = "int" then coerce .int v
  else if name = "float" then coerce .float v
  else coerce .str v

/-- The registry models.name_to_class mapping entity names to classes. -/
abbrev Registry := String → Option Descriptor

mutual

/-- src/quantnote_api/models/unmarshal.py lines 12-24, unmarshal_json:
scalar response types coerce directly; list payloads go through
_unmarshal_json_list (stripping one List wrapper from the type tag when
present); Dict response types hydrate each value of the payload object;
otherwise a fresh entity of the requested class is built, its
unmarshal_json method is called and the object - not the method result -
is returned.  The recursion of the whole cluster is bounded by a fuel
argument; exhausted fuel yields the artificial outcome fuelExhausted,
which the Python source cannot produce and which any fuel larger than
the nesting depth of the payload never reaches. -/
def unmarshal_json : Nat → Registry → String → Val → Except PyError Val
  | 0, _, _, _ => .error .fuelExhausted
  | fuel + 1, reg, response_type, v =>
    if response_type = "int" ∨ response_type = "float" ∨ response_type = "str" then
      scalarCoerce response_type v
    else
      -- the payload shape is matched once here; the source tests
      -- isinstance(resp_json, list) first, then the Dict branch (which
      -- calls items(), failing on a non-dict payload), then the entity
      -- fallback with the payload unchanged
      match v with
      | .list items =>
          match (if strContains response_type "List[" then splitBracket response_type
                 else .ok response_type) with
          | .error e => .error e
          | .ok known =>
              match unmarshal_json_list fuel reg known items with
              | .error e => .error e
              | .ok hydrated => .ok (.list hydrated)
      | .dict pairs =>
          if strContains response_type "Dict[" then
            match splitComma response_type with
            | .error e => .error e
            | .ok known =>
                match unmarshal_dict fuel reg known pairs with
                | .error e => .error e
                | .ok out => .ok (.dict out)
          else
            match reg response_type with
            | none => .error .keyError         -- name_to_class[response_type]
            | some d =>
                match defn_unmarshal_json fuel reg d [] (.dict pairs) with
                | .error e => .error e
                | .ok (store, _) => .ok (.ent d.name store)
      | other =>
          if strContains response_type "Dict[" then
            match splitComma response_type with
            | .error e => .error e
            | .ok _ => .error .attributeError  -- items() on a non-dict payload
          else
            match reg response_type with
            | none => .error .keyError         -- name_to_class[response_type]
            | some d =>
                match defn_unmarshal_json fuel reg d [] other with
                | .error e => .error e
                | .ok (store, _) => .ok (.ent d.name store)

/-- The dict comprehension of unmarshal.py line 21: every value of the
payload object is unmarshalled at the known value type. -/
def unmarshal_dict : Nat → Registry → String → List (String × Val) →
    Except PyError (List (String × Val))
  | 0, _, _, _ => .error .fuelExhausted
  | fuel + 1, reg, known, pairs =>
    match pairs with
    | [] => .ok []
    | (k, v) :: rest =>
        match unmarshal_json fuel reg known v with
        | .error e => .error e
        | .ok w =>
            match unmarshal_dict fuel reg known rest with
            | .error e => .error e
            | .ok out => .ok ((k, w) :: out)

/-- definitions.py lines 41-48, Definition._unmarshal_json_list: for each
array element a fresh entity of the known class is built and hydrated
via _unmarshal_json_object; a non-dict element makes items() fail. -/
def unmarshal_json_list : Nat → Registry → String → List Val →
    Except PyError (List Val)
  | 0, _, _, _ => .error .fuelExhausted
  | fuel + 1, reg, known, items =>
    match items with
    | [] => .ok []
    | item :: rest =>
        match reg known with
        | none => .error .keyError
        | some d =>
            match item with
            | .dict fields =>
                match unmarshal_object fuel reg d [] fields with
                | .error e => .error e
                | .ok store =>
                    match unmarshal_json_list fuel reg known rest with
                    | .error e => .error e
                    | .ok out => .ok (.ent d.name store :: out)
            | _ => .error .attributeError

/-- definitions.py lines 24-39, Definition.unmarshal_json: a list payload
is assigned to the first declared field (after a crashing attempt to
split the declared type object when one is declared); a dict payload is
hydrated field by field; a bare number - Python bools included, being
int instances - is returned unchanged; anything else returns None.  The
result pairs the updated attribute store with the Python return value. -/
def defn_unmarshal_json : Nat → Registry → Descriptor → Store → Val →
    Except PyError (Store × Val)
  | 0, _, _, _, _ => .error .fuelExhausted
  | fuel + 1, reg, d, store, v =>
    match v with
    | .list items =>
        match d.api_name_to_python.map Prod.snd with
        | [] => .error .indexError  -- values()[0] of an empty field table
        | firstField :: _ =>
            match List.lookup firstField d.attributes_to_types with
            | some ty =>
                match pyTypeSplit ty with
                | .error e => .error e
                | .ok known =>
                    match unmarshal_json_list fuel reg known items with
                    | .error e => .error e
                    | .ok hydrated =>
                        let st := setAttr store firstField (.list hydrated)
                        .ok (st, .ent d.name st)
            | none =>
                let st := setAttr store firstField (.list items)
                .ok (st, .ent d.name st)
    | .dict fields =>
        match unmarshal_object fuel reg d store fields with
        | .error e => .error e
        | .ok st => .ok (st, .ent d.name st)
    | .num n => .ok (store, .num n)
    | .bool b => .ok (store, .bool b)
    | _ => .ok (store, .pynone)

/-- The body of the loop of definitions.py lines 51-66: derive the
attribute name and the stored value for one wire key/value pair. -/
def hydrate_field : Nat → Registry → Descriptor → String → Val →
    Except PyError (String × Val)
  | 0, _, _, _, _ => .error .fuelExhausted
  | fuel + 1, reg, d, key, value =>
    match List.lookup key d.api_name_to_python with
    | some attribute_name =>
        match List.lookup attribute_name d.attribute_is_primitive with
        | none => .error .keyError     -- _attribute_is_primitive[attribute_name]
        | some isPrim =>
            if isPrim then
              match List.lookup attribute_name d.attributes_to_types with
              | none => .error .keyError  -- _attributes_to_types[attribute_name]
              | some ty =>
                  match coerce ty value with
                  | .error e => .error e
                  | .ok w => .ok (attribute_name, w)
            else
              match List.lookup attribute_name d.attributes_to_types with
              | some model =>
                  match model with
                  | .listOf elemName =>
                      -- line 58: List of the element class name
                      match unmarshal_json fuel reg ("List[" ++ elemName ++ "]") value with
                      | .error e => .error e
                      | .ok w => .ok (attribute_name, w)
                  | .entity entName =>
                      -- line 61: model().unmarshal_json(value); the method
                      -- return value is used here.  The class is resolved by
                      -- its registry name (the source holds it directly).
                      match reg entName with
                      | none => .error .keyError
                      | some d2 =>
                          match defn_unmarshal_json fuel reg d2 [] value with
                          | .error e => .error e
                          | .ok (_, ret) => .ok (attribute_name, ret)
                  | .isoparse => .error .typeError  -- isoparse() without arguments
                  | _ => .error .attributeError
                      -- float()/int()/str() instances lack unmarshal_json
              | none => .ok (attribute_name, value)  -- raw value kept (line 55 guard)
    | none =>
        -- lines 64-65: unknown key kept raw, underscore-suffixed if keyword
        .ok (key ++ (if iskeyword key then "_" else ""), value)

/-- definitions.py lines 50-68, Definition._unmarshal_json_object:
iterate the payload pairs in order, derive each attribute and set it. -/
def unmarshal_object : Nat → Registry → Descriptor → Store →
    List (String × Val) → Except PyError Store
  | 0, _, _, _, _ => .error .fuelExhausted
  | fuel + 1, reg, d, store, fields =>
    match fields with
    | [] => .ok store
    | (key, value) :: rest =>
        match hydrate_field fuel reg d key value with
        | .error e => .error e
        | .ok (a, w) => unmarshal_object fuel reg d (setAttr store a w) rest

end

/-! ### Concrete schema fragment

The registry models/__init__.py holds 38 entity classes; the theorems
below quantify over an arbitrary registry, and this concrete fragment
(the classes the claims exercise) feeds the witnesses and
counterexamples.  Tables transcribed from definitions.py. -/

/-- definitions.py lines 71-109. -/
def PoolBalance : Descriptor := .mk "PoolBalance"
  [("balance", "balance"), ("pending_reward", "pending_reward"),
   ("pending_reward_price", "pending_reward_price"), ("price", "price"),
   ("reward_token", "reward_token"), ("token", "token"),
   ("token_address", "token_address")]
  [("balance", true), ("pending_reward", true), ("pending_reward_price", true),
   ("price", true), ("reward_token", true), ("token", true),
   ("token_address", true)]
  [("balance", .float), ("pending_reward", .float),
   ("pending_reward_price", .float), ("price", .float),
   ("reward_token", .str), ("token", .str), ("token_address", .str)]

/-- definitions.py lines 112-130. -/
def WhitelistedAddress : Descriptor := .mk "WhitelistedAddress"
  [("address", "address"), ("id", "id")]
  [("address", true), ("id", true)]
  [("address", .str), ("id", .int)]

/-- definitions.py lines 133-160. -/
def FarmPortfolio : Descriptor := .mk "FarmPortfolio"
  [("farm_icon", "farm_icon"), ("farm_name", "farm_name"),
   ("farm_true_name", "farm_true_name"), ("pools_balance", "pools_balance")]
  [("farm_icon", true), ("farm_name", true), ("farm_true_name", true),
   ("pools_balance", false)]
  [("farm_icon", .str), ("farm_name", .str), ("farm_true_name", .str),
   ("pools_balance", .listOf "PoolBalance")]

/-- definitions.py lines 678-700. -/
def FarmResponse : Descriptor := .mk "FarmResponse"
  [("name", "name"), ("true_name", "true_name"), ("tvl", "tvl")]
  [("name", true), ("true_name", true), ("tvl", true)]
  [("name", .str), ("true_name", .str), ("tvl", .float)]

/-- definitions.py lines 703-729. -/
def FarmsPortfolioResponse : Descriptor := .mk "FarmsPortfolioResponse"
  [("lp_pools", "lp_pools"), ("optimizer_lp_pools", "optimizer_lp_pools"),
   ("optimizer_single_asset_pools", "optimizer_single_asset_pools"),
   ("single_asset_pools", "single_asset_pools")]
  [("lp_pools", false), ("optimizer_lp_pools", false),
   ("optimizer_single_asset_pools", false), ("single_asset_pools", false)]
  [("lp_pools", .listOf "FarmPortfolio"),
   ("optimizer_lp_pools", .listOf "FarmPortfolio"),
   ("optimizer_single_asset_pools", .listOf "FarmPortfolio"),
   ("single_asset_pools", .listOf "FarmPortfolio")]

/-- The fragment of models.name_to_class used by the witnesses. -/
def name_to_class : Registry := fun n =>
  if n = "PoolBalance" then some PoolBalance
  else if n = "WhitelistedAddress" then some WhitelistedAddress
  else if n = "FarmPortfolio" then some FarmPortfolio
  else if n = "FarmResponse" then some FarmResponse
  else if n = "FarmsPortfolioResponse" then some FarmsPortfolioResponse
  else none

/-! ### Unmarshaller theorems -/

/-- Counterexample to claim C4 as stated: at the public entry point the
entity branch discards the return value of the unmarshal_json method
(unmarshal.py lines 22-24), so a bare scalar payload decoded at a
registered entity type comes back as a freshly constructed empty entity,
not as the number. -/
theorem unmarshal_scalar_entry_not_passthrough :
    unmarshal_json 2 name_to_class "WhitelistedAddress" (.num 7)
        = .ok (.ent "WhitelistedAddress" [])
    ∧ unmarshal_json 2 name_to_class "WhitelistedAddress" (.num 7)
        ≠ .ok (.num 7) := by
  have h : unmarshal_json 2 name_to_class "WhitelistedAddress" (.num 7)
      = .ok (.ent "WhitelistedAddress" []) := by rfl
  exact ⟨h, by rw [h]; simp⟩

/-- Claim C4 amended: the scalar pass-through lives in the entity-level
decoder Definition.unmarshal_json (definitions.py lines 38-39), whose
return value the nested hydration path does use; the public entry point,
however, discards that return value and hands back the freshly
constructed entity with no attribute set. -/
theorem unmarshal_scalar_passthrough_located (fuel : Nat) (reg : Registry)
    (T : String) (d : Descriptor) (n : Int) (store : Store)
    (h1 : T ≠ "int") (h2 : T ≠ "float") (h3 : T ≠ "str")
    (h4 : strContains T "Dict[" = false) (h5 : reg T = some d) :
    defn_unmarshal_json (fuel + 1) reg d store (.num n) = .ok (store, .num n)
    ∧ unmarshal_json (fuel + 2) reg T (.num n) = .ok (.ent d.name []) := by
  constructor
  · simp [defn_unmarshal_json]
  · simp [unmarshal_json, h1, h2, h3, h4, h5, defn_unmarshal_json]

/-- Witness for C4: the registered type WhitelistedAddress at payload 7. -/
theorem unmarshal_scalar_passthrough_located_witness :
    defn_unmarshal_json 1 name_to_class WhitelistedAddress [] (.num 7)
        = .ok ([], .num 7)
    ∧ unmarshal_json 2 name_to_class "WhitelistedAddress" (.num 7)
        = .ok (.ent (Descriptor.name WhitelistedAddress) []) :=
  unmarshal_scalar_passthrough_located 0 name_to_class "WhitelistedAddress"
    WhitelistedAddress 7 [] (by decide) (by decide) (by decide) (by decide) rfl

/-- Claim C5 (code bug): a JSON array handed to the entity-level decoder
with a declared first field does not hydrate the elements into that
field: definitions.py line 29 calls split on the declared type object
(typing.List of FarmPortfolio), which has no split attribute, so the
branch raises AttributeError.  At the public entry point the branch is
not even reached: unmarshal.py lines 15-18 intercept every list payload
and return a bare list whose elements are hydrated as the requested type
itself, not as the element type of the first declared field. -/
theorem farms_portfolio_array_hydration_crashes :
    defn_unmarshal_json 10 name_to_class FarmsPortfolioResponse []
        (.list [.dict [("farm_name", .str "alpha")]]) = .error .attributeError
    ∧ unmarshal_json 10 name_to_class "FarmsPortfolioResponse"
        (.list [.dict [("farm_name", .str "alpha")]])
      = .ok (.list [.ent "FarmsPortfolioResponse" [("farm_name", .str "alpha")]]) := by
  exact ⟨rfl, rfl⟩

/-! ### Hydration frame lemmas (claim C10) -/

lemma getAttr_cons_pos (p : String × Val) (rest : Store) (b : String)
    (h : (p.1 == b) = true) : getAttr (p :: rest) b = some p.2 := by
  simp [getAttr, List.find?_cons, h]

lemma getAttr_cons_neg (p : String × Val) (rest : Store) (b : String)
    (h : (p.1 == b) = false) : getAttr (p :: rest) b = getAttr rest b := by
  simp [getAttr, List.find?_cons, h]

lemma setAttr_map_self (s : Store) (a : String) (v : Val)
    (h : s.any (fun p => p.1 == a) = true) :
    getAttr (s.map fun p => if p.1 == a then (a, v) else p) a = some v := by
  induction s with
  | nil => simp at h
  | cons p rest ih =>
      rw [List.map_cons]
      by_cases hp : (p.1 == a) = true
      · rw [if_pos hp]
        exact getAttr_cons_pos (a, v) _ a (by simp)
      · rw [if_neg hp]
        have hp' : (p.1 == a) = false := by
          cases hb : (p.1 == a) with
          | true => exact absurd hb hp
          | false => rfl
        rw [getAttr_cons_neg p _ a hp']
        have h' : rest.any (fun q => q.1 == a) = true := by
          rw [List.any_cons, hp', Bool.false_or] at h
          exact h
        exact ih h'

lemma setAttr_append_self (s : Store) (a : String) (v : Val)
    (h : s.any (fun p => p.1 == a) = false) :
    getAttr (s ++ [(a, v)]) a = some v := by
  induction s with
  | nil => exact getAttr_cons_pos (a, v) [] a (by simp)
  | cons p rest ih =>
      rw [List.any_cons] at h
      have hp : (p.1 == a) = false := by
        cases hb : (p.1 == a) with
        | true => rw [hb] at h; simp at h
        | false => rfl
      have h' : rest.any (fun q => q.1 == a) = false := by
        rw [hp, Bool.false_or] at h
        exact h
      rw [List.cons_append, getAttr_cons_neg p _ a hp]
      exact ih h'

lemma setAttr_map_ne (s : Store) (a b : String) (v : Val) (hne : b ≠ a) :
    getAttr (s.map fun p => if p.1 == a then (a, v) else p) b = getAttr s b := by
  induction s with
  | nil => rfl
  | cons p rest ih =>
      rw [List.map_cons]
      by_cases hp : (p.1 == a) = true
      · rw [if_pos hp]
        have hab : ((a : String) == b) = false :=
          beq_eq_false_iff_ne.mpr fun he => hne he.symm
        have hpa : p.1 = a := by simpa using hp
        have hpb : (p.1 == b) = false :=
          beq_eq_false_iff_ne.mpr (by rw [hpa]; exact fun he => hne he.symm)
        rw [getAttr_cons_neg (a, v) _ b hab, getAttr_cons_neg p rest b hpb]
        exact ih
      · rw [if_neg hp]
        by_cases hpb : (p.1 == b) = true
        · rw [getAttr_cons_pos p _ b hpb, getAttr_cons_pos p rest b hpb]
        · have hpb' : (p.1 == b) = false := by
            cases hb : (p.1 == b) with
            | true => exact absurd hb hpb
            | false => rfl
          rw [getAttr_cons_neg p _ b hpb', getAttr_cons_neg p rest b hpb']
          exact ih

lemma setAttr_append_ne (s : Store) (a b : String) (v : Val) (hne : b ≠ a) :
    getAttr (s ++ [(a, v)]) b = getAttr s b := by
  induction s with
  | nil =>
      have hab : ((a : String) == b) = false :=
        beq_eq_false_iff_ne.mpr fun he => hne he.symm
      rw [List.nil_append, getAttr_cons_neg (a, v) [] b hab]
  | cons p rest ih =>
      by_cases hpb : (p.1 == b) = true
      · rw [List.cons_append, getAttr_cons_pos p _ b hpb, getAttr_cons_pos p rest b hpb]
      · have hpb' : (p.1 == b) = false := by
          cases hb : (p.1 == b) with
          | true => exact absurd hb hpb
          | false => rfl
        rw [List.cons_append, getAttr_cons_neg p _ b hpb', getAttr_cons_neg p rest b hpb']
        exact ih

/-- Python setattr seen through attribute lookup: the written attribute
reads back the new value, every other attribute is untouched. -/
lemma getAttr_setAttr (s : Store) (a b : String) (v : Val) :
    getAttr (setAttr s a v) b = if b = a then some v else getAttr s b := by
  unfold setAttr
  by_cases hany : s.any (fun p => p.1 == a) = true
  · rw [if_pos hany]
    by_cases hb : b = a
    · subst hb
      rw [if_pos rfl]
      exact setAttr_map_self s b v hany
    · rw [if_neg hb]
      exact setAttr_map_ne s a b v hb
  · have hany' : s.any (fun p => p.1 == a) = false := by
      cases hb : s.any (fun p => p.1 == a) with
      | true => exact absurd hb hany
      | false => rfl
    rw [if_neg hany]
    by_cases hb : b = a
    · subst hb
      rw [if_pos rfl]
      exact setAttr_append_self s b v hany'
    · rw [if_neg hb]
      exact setAttr_append_ne s a b v hb

/-- On every successful path, the attribute written by one loop step of
_unmarshal_json_object is the one derived from the wire key. -/
lemma hydrate_field_name (fuel : Nat) (reg : Registry) (d : Descriptor)
    (key : String) (value : Val) (a : String) (w : Val)
    (h : hydrate_field fuel reg d key value = .ok (a, w)) :
    a = targetName d key := by
  match fuel with
  | 0 => exact absurd h (by simp [hydrate_field])
  | fuel + 1 =>
    unfold targetName
    rcases hk : List.lookup key d.api_name_to_python with _ | attribute_name
    · simp only [hydrate_field, hk] at h
      simp only [Except.ok.injEq, Prod.mk.injEq] at h
      exact h.1.symm
    · simp only [hydrate_field, hk] at h
      repeat' split at h
      all_goals simp_all

/-- The frame of _unmarshal_json_object over an arbitrary starting store:
attributes outside the image of the payload keys keep their old lookup
result, attributes in the image end up set. -/
lemma unmarshal_object_frame (reg : Registry) (d : Descriptor) :
    ∀ (fuel : Nat) (fields : List (String × Val)) (store store' : Store),
      unmarshal_object fuel reg d store fields = .ok store' →
      ∀ a : String,
        ((¬ ∃ k ∈ fields.map Prod.fst, targetName d k = a) →
            getAttr store' a = getAttr store a)
        ∧ ((∃ k ∈ fields.map Prod.fst, targetName d k = a) →
            (getAttr store' a).isSome) := by
  intro fuel
  induction fuel with
  | zero =>
      intro fields store store' h a
      exact absurd h (by simp [unmarshal_object])
  | succ fuel ih =>
      intro fields store store' h a
      match fields with
      | [] =>
          simp only [unmarshal_object, Except.ok.injEq] at h
          subst h
          exact ⟨fun _ => rfl, fun hex => by simp at hex⟩
      | (key, value) :: rest =>
      rcases hf : hydrate_field fuel reg d key value with e | aw
      · simp only [unmarshal_object, hf] at h
        exact absurd h (by simp)
      · obtain ⟨aName, w⟩ := aw
        simp only [unmarshal_object, hf] at h
        have hname : aName = targetName d key :=
          hydrate_field_name fuel reg d key value aName w hf
        have IH := ih rest (setAttr store aName w) store' h a
        constructor
        · intro hno
          have hne : a ≠ aName := by
            intro he
            exact hno ⟨key, by simp, by rw [← hname, ← he]⟩
          have hnorest : ¬ ∃ k ∈ rest.map Prod.fst, targetName d k = a := by
            rintro ⟨k, hk, hkt⟩
            exact hno ⟨k, by simp [hk], hkt⟩
          rw [IH.1 hnorest, getAttr_setAttr, if_neg hne]
        · rintro ⟨k, hk, hkt⟩
          simp only [List.map_cons, List.mem_cons] at hk
          by_cases hrest : ∃ k ∈ rest.map Prod.fst, targetName d k = a
          · exact IH.2 hrest
          · have hka : a = aName := by
              rcases hk with hk | hk
              · rw [← hkt, hk, hname]
              · exact absurd ⟨k, hk, hkt⟩ hrest
            rw [IH.1 hrest, hka, getAttr_setAttr, if_pos rfl]
            rfl

/-- Claim C10: entity-object hydration sets exactly the attributes derived
from the payload keys (field table image, or raw key with an underscore
when the key is a reserved keyword): on success, any other attribute
reads exactly as before, every targeted attribute is set, and starting
from a fresh entity the set attributes are precisely the images of the
payload keys. -/
theorem hydration_sets_exactly_payload_keys (fuel : Nat) (reg : Registry)
    (d : Descriptor) (fields : List (String × Val)) (store store' : Store)
    (h : unmarshal_object fuel reg d store fields = .ok store') (a : String) :
    ((¬ ∃ k ∈ fields.map Prod.fst, targetName d k = a) →
        getAttr store' a = getAttr store a)
    ∧ ((∃ k ∈ fields.map Prod.fst, targetName d k = a) →
        (getAttr store' a).isSome)
    ∧ (store = [] →
        ((getAttr store' a).isSome ↔ ∃ k ∈ fields.map Prod.fst, targetName d k = a)) := by
  have base := unmarshal_object_frame reg d fuel fields store store' h a
  refine ⟨base.1, base.2, ?_⟩
  intro hempty
  subst hempty
  constructor
  · intro hsome
    by_contra hno
    rw [base.1 hno] at hsome
    simp [getAttr] at hsome
  · exact base.2

/-- Witness for C10: hydrating WhitelistedAddress from a payload with two
declared keys and the unknown reserved keyword class sets exactly the
attributes address, id and class with a trailing underscore. -/
theorem hydration_sets_exactly_payload_keys_witness :
    ((¬ ∃ k ∈ ([("address", Val.str "0xabc"), ("id", Val.num 5),
          ("class", Val.bool true)].map Prod.fst),
        targetName WhitelistedAddress k = "contract") →
      getAttr [("address", Val.str "0xabc"), ("id", Val.num 5),
          ("class_", Val.bool true)] "contract" = getAttr [] "contract")
    ∧ ((∃ k ∈ ([("address", Val.str "0xabc"), ("id", Val.num 5),
          ("class", Val.bool true)].map Prod.fst),
        targetName WhitelistedAddress k = "contract") →
      (getAttr [("address", Val.str "0xabc"), ("id", Val.num 5),
          ("class_", Val.bool true)] "contract").isSome)
    ∧ (([] : Store) = [] →
      ((getAttr [("address", Val.str "0xabc"), ("id", Val.num 5),
          ("class_", Val.bool true)] "contract").isSome
        ↔ ∃ k ∈ ([("address", Val.str "0xabc"), ("id", Val.num 5),
            ("class", Val.bool true)].map Prod.fst),
            targetName WhitelistedAddress k = "contract")) :=
  hydration_sets_exactly_payload_keys 5 name_to_class WhitelistedAddress
    [("address", .str "0xabc"), ("id", .num 5), ("class", .bool true)] []
    [("address", .str "0xabc"), ("id", .num 5), ("class_", .bool true)]
    (by rfl) "contract"

end PyQuant
